import Mathlib

/-!
Shallow embedding of the event-capacity and registration-consistency core of
the kidevent repository (src/shared/schema.ts, src/server/storage.ts,
src/server/routes.ts), together with theorems settling the frozen claims
about its specification.

Modelling conventions:
- instants are milliseconds since the epoch, as Int (JS Date.getTime);
- JS numbers used as prices are modelled as rationals;
- database tables are lists of rows; the row types carry exactly the fields
  the modelled operations read or write (audit columns such as updatedAt and
  purely descriptive columns are omitted);
- the stored status column is a String, matching the runtime varchar column
  (the TypeScript EventStatus annotation is erased at runtime);
- each storage method of DatabaseStorage becomes a pure function on the
  database state; the HTTP register handler becomes a function from the
  database, the request and the clock to an outcome paired with the final
  database state, with an explicit fault flag for each of its two writes so
  that runs in which a storage step fails can be stated.
-/

namespace KidEvent

/-- Extra service attached to an event (ExtraService in src/shared/schema.ts);
the JS number price is modelled as a rational. -/
structure ExtraService where
  description : String
  price : ℚ
  deriving Repr, DecidableEq

/-- Row of the events table (src/shared/schema.ts, pgTable "events"),
restricted to the columns the modelled core reads or writes. -/
structure Event where
  id : String
  startTime : Int
  maxSeats : Int
  remainingSeats : Int
  creditsRequired : Int
  cutoffHours : Int
  extraServices : List ExtraService
  allowedRegistrants : String
  status : String
  deleted : Bool
  deriving Repr, DecidableEq

/-- Row of the attendee table (children), restricted to the columns the
registration workflow reads. -/
structure Child where
  id : String
  parentId : String
  deriving Repr, DecidableEq

/-- Row of the event_registrations table. -/
structure Registration where
  id : String
  eventId : String
  childId : Option String
  parentId : String
  selectedServices : List Int
  creditsCost : Int
  servicesCost : Int
  deriving Repr, DecidableEq

/-- The relational state the modelled storage methods act on. -/
structure DB where
  events : List Event
  children : List Child
  registrations : List Registration
  deriving Repr, DecidableEq

/-- Milliseconds in one hour, the factor used by the cutoff computations. -/
def msPerHour : Int := 3600000

/-- calculateEventStatus (src/shared/schema.ts lines 248-270). The only
difference from the source is that the clock (new Date() there) is an
explicit argument. Note that the function never consults event.status:
it derives only from time, cutoff and seats. -/
def calculateEventStatus (event : Event) (now : Int) : String :=
  let eventDate := event.startTime
  let cutoffTime := eventDate - event.cutoffHours * msPerHour
  if eventDate < now then "past"
  else if event.remainingSeats ≤ 0 then "full"
  else if now > cutoffTime then "registration_closed"
  else "open"

/-- DatabaseStorage.getEvent: select the first events row with the given id
(soft-deleted rows are not filtered out by this method). -/
def getEvent (db : DB) (id : String) : Option Event :=
  db.events.find? (fun e => e.id = id)

/-- DatabaseStorage.getAllEvents (src/server/storage.ts lines 160-232),
restricted to the behaviour visible on event rows: deleted rows are dropped
unless includeDeleted, and each row's status is overridden with the value
recomputed by calculateEventStatus. Supervisor-name enrichment and the
orderBy clause are omitted: they do not touch the modelled columns. -/
def getAllEvents (db : DB) (includeDeleted : Bool) (now : Int) : List Event :=
  let filtered := if includeDeleted then db.events
    else db.events.filter (fun e => !e.deleted)
  filtered.map (fun e => { e with status := calculateEventStatus e now })

/-- DatabaseStorage.getEventsForUser (src/server/storage.ts lines 239-245):
non-deleted events whose (recomputed) status is neither past nor editing. -/
def getEventsForUser (db : DB) (now : Int) : List Event :=
  (getAllEvents db false now).filter
    (fun e => e.status ≠ "past" ∧ e.status ≠ "editing")

/-- Concrete event whose administrator has set the editing override, with a
far-future start, free seats and zero cutoff, used to exercise the status
derivation at a point where every time/capacity rule is inactive. -/
def editingEvent : Event :=
  { id := "e1", startTime := 1000000000, maxSeats := 5, remainingSeats := 5,
    creditsRequired := 0, cutoffHours := 0, extraServices := [],
    allowedRegistrants := "attendee", status := "editing", deleted := false }

/-- Database holding only the event marked editing. -/
def editingDB : DB :=
  { events := [editingEvent], children := [], registrations := [] }

/-- C3: the claim says the editing override is evaluated first and wins, but
calculateEventStatus never reads the stored status: on an event explicitly
marked editing (future start, free seats, zero cutoff) it returns open, and
getAllEvents overrides the stored editing status with that value, so the
event even passes the user-listing filter that was meant to hide editing
events. -/
theorem editing_override_is_ignored_by_status_derivation :
    editingEvent.status = "editing" ∧
    calculateEventStatus editingEvent 0 = "open" ∧
    (getEventsForUser editingDB 0).map Event.status = ["open"] := by
  decide

/-- Concrete event observed exactly at its start instant. -/
def boundaryEvent : Event :=
  { id := "e2", startTime := 5000, maxSeats := 3, remainingSeats := 1,
    creditsRequired := 0, cutoffHours := 0, extraServices := [],
    allowedRegistrants := "attendee", status := "open", deleted := false }

/-- C9 counterexample: at the exact boundary instant now = startTime (an
event with seats free and zero cutoff, no editing override), the derived
status is open, not past: the past rule uses a strict comparison. -/
theorem status_at_start_boundary_is_not_past :
    5000 ≥ boundaryEvent.startTime ∧
    calculateEventStatus boundaryEvent 5000 = "open" ∧
    calculateEventStatus boundaryEvent 5000 ≠ "past" := by
  decide

/-- C9 amended: calculateEventStatus returns past exactly when now is
strictly after startTime; the rule is evaluated first (the stored status is
never consulted, so no editing override can preempt it), and at the boundary
instant now = startTime the result is never past. -/
theorem status_past_iff_strictly_after_start (event : Event) (now : Int) :
    calculateEventStatus event now = "past" ↔ event.startTime < now := by
  simp only [calculateEventStatus]
  split_ifs with h1 h2 h3
  · exact iff_of_true rfl h1
  · exact iff_of_false (by decide) h1
  · exact iff_of_false (by decide) h1
  · exact iff_of_false (by decide) h1

/-- DatabaseStorage.getChild: select the first attendee row with the id. -/
def getChild (db : DB) (id : String) : Option Child :=
  db.children.find? (fun c => c.id = id)

/-- DatabaseStorage.isChildRegisteredForEvent: does a registration row bind
this exact (child, event) pair. -/
def isChildRegisteredForEvent (db : DB) (childId : String) (eventId : String) : Bool :=
  db.registrations.any (fun r => r.childId = some childId ∧ r.eventId = eventId)

/-- DatabaseStorage.getEventRegistrationsByParent: all registration rows of
one parent. -/
def getEventRegistrationsByParent (db : DB) (parentId : String) : List Registration :=
  db.registrations.filter (fun r => r.parentId = parentId)

/-- DatabaseStorage.createEventRegistration: insert one registration row. -/
def createEventRegistration (db : DB) (r : Registration) : DB :=
  { db with registrations := db.registrations ++ [r] }

/-- DatabaseStorage.updateEventSeats (src/server/storage.ts lines 339-349):
apply the signed delta remainingSeats + seatsChange to every events row with
the given id, with no clamping at 0 or maxSeats. -/
def updateEventSeats (db : DB) (eventId : String) (seatsChange : Int) : DB :=
  { db with events := db.events.map (fun e =>
      if e.id = eventId then
        { e with remainingSeats := e.remainingSeats + seatsChange }
      else e) }

/-- Registration request reaching the POST /api/events/:eventId/register
handler after body parsing: the event id from the path, the optional child
id (req.body.childId or null), the authenticated caller's id and role, and
the selected extra-service indices. -/
structure RegRequest where
  eventId : String
  childId : Option String
  parentId : String
  parentRole : String
  selectedServices : List Int
  deriving Repr, DecidableEq

/-- The user-visible outcome of one run of the register handler. -/
inductive Outcome where
  | rejected (httpStatus : Int) (message : String)
  | storageFailed
  | accepted
  deriving Repr, DecidableEq

/-- Final state of one run of the register handler: the outcome together
with the database state when the handler returned. -/
structure RunResult where
  outcome : Outcome
  db : DB
  deriving Repr, DecidableEq

/-- Fault schedule for the two storage writes of the register handler: when
a flag is set, the corresponding call throws (surfaced as a 500 by the
handler's catch block). -/
structure Faults where
  insertFails : Bool
  seatUpdateFails : Bool
  deriving Repr, DecidableEq

/-- Fault-free schedule: every storage call succeeds. -/
def noFaults : Faults := { insertFails := false, seatUpdateFails := false }

/-- Validation section of the register handler (src/server/routes.ts lines
480-540), translated check by check and in the source's order: event
existence, seat availability, cutoff, allowed-registrants mode, then per
branch the uniqueness check and (for children) the ownership check. On
success it returns the fetched event, exactly the value the effects section
of the handler keeps in scope. -/
def validateRegistration (db : DB) (req : RegRequest) (now : Int) :
    Except (Int × String) Event :=
  match getEvent db req.eventId with
  | none => .error (404, "Event not found")
  | some event =>
    if event.remainingSeats ≤ 0 then
      .error (400, "No seats available for this event")
    else
      if now > event.startTime - event.cutoffHours * msPerHour then
        .error (400, "Registration deadline has passed")
      else
        match req.childId with
        | none =>
          if event.allowedRegistrants = "attendee" then
            .error (400, "This event is only open to children (attendees)")
          else if (getEventRegistrationsByParent db req.parentId).any
              (fun r => r.eventId = req.eventId ∧ r.childId = none) then
            .error (400, "You are already registered for this event")
          else .ok event
        | some childId =>
          if event.allowedRegistrants = "user" then
            .error (400, "This event is only open to parents (users)")
          else if isChildRegisteredForEvent db childId req.eventId then
            .error (400, "Child is already registered for this event")
          else
            match getChild db childId with
            | none => .error (404, "Child not found")
            | some child =>
              if child.parentId ≠ req.parentId then
                .error (404, "Child not found")
              else .ok event

/-- Service lookup event.extraServices?.[serviceIndex]: JS array indexing
yields undefined for a negative, fractional-free out-of-range index. -/
def lookupService (services : List ExtraService) (i : Int) : Option ExtraService :=
  if 0 ≤ i then services[i.toNat]? else none

/-- JS Math.round: round half toward positive infinity. -/
def jsRound (x : ℚ) : Int := ⌊x + 1 / 2⌋

/-- Services-cost reduce of the handler (src/server/routes.ts lines
544-547): each selected index contributes round(price * 100) when it names
an existing extra service and 0 otherwise. -/
def computeServicesCost (event : Event) (selected : List Int) : Int :=
  selected.foldl (fun total serviceIndex =>
    total + (match lookupService event.extraServices serviceIndex with
      | some s => jsRound (s.price * 100)
      | none => 0)) 0

/-- The registration row the handler inserts (registrationWithCosts,
src/server/routes.ts lines 550-555); the row id is generated by the
database and passed here as freshId. -/
def mkRegistration (req : RegRequest) (event : Event) (freshId : String) : Registration :=
  { id := freshId, eventId := req.eventId, childId := req.childId,
    parentId := req.parentId, selectedServices := req.selectedServices,
    creditsCost := event.creditsRequired,
    servicesCost := computeServicesCost event req.selectedServices }

/-- The register handler POST /api/events/:eventId/register
(src/server/routes.ts lines 459-590): run the validation section, then
insert the registration row, then conditionally decrement the seat count
(always for a child registration; for a parent-self registration only when
the caller's role is neither admin nor staff). The two writes carry fault
flags; a failing write surfaces as storageFailed with the database exactly
as it was at that point — the source wraps the handler in one try/catch and
runs no compensation. -/
def admitRegistration (faults : Faults) (db : DB) (req : RegRequest) (now : Int)
    (freshId : String) : RunResult :=
  match validateRegistration db req now with
  | .error (status, msg) => { outcome := .rejected status msg, db := db }
  | .ok event =>
    if faults.insertFails then { outcome := .storageFailed, db := db }
    else
      let db1 := createEventRegistration db (mkRegistration req event freshId)
      match req.childId with
      | some _ =>
        if faults.seatUpdateFails then { outcome := .storageFailed, db := db1 }
        else { outcome := .accepted, db := updateEventSeats db1 req.eventId (-1) }
      | none =>
        if req.parentRole ≠ "admin" ∧ req.parentRole ≠ "staff" then
          if faults.seatUpdateFails then { outcome := .storageFailed, db := db1 }
          else { outcome := .accepted, db := updateEventSeats db1 req.eventId (-1) }
        else { outcome := .accepted, db := db1 }

/-- C4 amended: when the named event does not exist the handler rejects
with 404 Event not found and the database is untouched; the soft-delete
flag, however, is never consulted on this path (see the counterexample). -/
theorem missing_event_rejected_with_not_found (faults : Faults) (db : DB)
    (req : RegRequest) (now : Int) (freshId : String)
    (h : getEvent db req.eventId = none) :
    admitRegistration faults db req now freshId =
      { outcome := .rejected 404 "Event not found", db := db } := by
  simp [admitRegistration, validateRegistration, h]

/-- Empty database. -/
def emptyDB : DB := { events := [], children := [], registrations := [] }

/-- Parent-self request naming an event id absent from emptyDB. -/
def ghostReq : RegRequest :=
  { eventId := "nope", childId := none, parentId := "p1", parentRole := "user",
    selectedServices := [] }

/-- Witness for the amended C4 theorem at a concrete input. -/
theorem missing_event_rejected_with_not_found_witness :
    admitRegistration noFaults emptyDB ghostReq 0 "r1" =
      { outcome := .rejected 404 "Event not found", db := emptyDB } :=
  missing_event_rejected_with_not_found noFaults emptyDB ghostReq 0 "r1" (by decide)

/-- Soft-deleted event that would pass every other admission check. -/
def deletedEvent : Event :=
  { id := "ed", startTime := 1000000000, maxSeats := 3, remainingSeats := 3,
    creditsRequired := 2, cutoffHours := 0, extraServices := [],
    allowedRegistrants := "both", status := "open", deleted := true }

/-- Database holding only the soft-deleted event. -/
def deletedDB : DB := { events := [deletedEvent], children := [], registrations := [] }

/-- Ordinary parent-self request against the soft-deleted event. -/
def deletedReq : RegRequest :=
  { eventId := "ed", childId := none, parentId := "p1", parentRole := "user",
    selectedServices := [] }

/-- C4 counterexample: the handler checks only that getEvent returned a row
and never reads the deleted flag, so a registration against a soft-deleted
event is accepted and mutates the database, where the claim demanded a
NotFound rejection with no side effect. -/
theorem soft_deleted_event_accepts_registration :
    deletedEvent.deleted = true ∧
    (admitRegistration noFaults deletedDB deletedReq 0 "r1").outcome = Outcome.accepted ∧
    (admitRegistration noFaults deletedDB deletedReq 0 "r1").db ≠ deletedDB := by
  decide
/-- Shape of a run whose validation section rejects: the handler returns
before either write, with the database untouched. -/
theorem admit_shape_rejected (faults : Faults) (db : DB) (req : RegRequest)
    (now : Int) (freshId : String) (s : Int) (m : String)
    (hv : validateRegistration db req now = Except.error (s, m)) :
    admitRegistration faults db req now freshId =
      { outcome := Outcome.rejected s m, db := db } := by
  unfold admitRegistration
  rw [hv]

/-- Shape of a run in which the insert write fails: no row, no seat change. -/
theorem admit_shape_insert_fails (faults : Faults) (db : DB) (req : RegRequest)
    (now : Int) (freshId : String) (event : Event)
    (hv : validateRegistration db req now = Except.ok event)
    (hi : faults.insertFails = true) :
    admitRegistration faults db req now freshId =
      { outcome := Outcome.storageFailed, db := db } := by
  unfold admitRegistration
  rw [hv, hi]
  simp

/-- Shape of a child-registration run in which the insert succeeds and the
seat update fails: the row stays, the seats stay. -/
theorem admit_shape_child_seat_fails (faults : Faults) (db : DB) (req : RegRequest)
    (now : Int) (freshId : String) (event : Event) (cid : String)
    (hv : validateRegistration db req now = Except.ok event)
    (hc : req.childId = some cid) (hi : faults.insertFails = false)
    (hs : faults.seatUpdateFails = true) :
    admitRegistration faults db req now freshId =
      { outcome := Outcome.storageFailed,
        db := createEventRegistration db (mkRegistration req event freshId) } := by
  unfold admitRegistration
  rw [hv, hi, hc, hs]
  simp

/-- Shape of a fault-free accepted child-registration run: row inserted,
then the seat count decremented by one. -/
theorem admit_shape_child_ok (faults : Faults) (db : DB) (req : RegRequest)
    (now : Int) (freshId : String) (event : Event) (cid : String)
    (hv : validateRegistration db req now = Except.ok event)
    (hc : req.childId = some cid) (hi : faults.insertFails = false)
    (hs : faults.seatUpdateFails = false) :
    admitRegistration faults db req now freshId =
      { outcome := Outcome.accepted,
        db := updateEventSeats
          (createEventRegistration db (mkRegistration req event freshId))
          req.eventId (-1) } := by
  unfold admitRegistration
  rw [hv, hi, hc, hs]
  simp

/-- Shape of a parent-self run by an ordinary role in which the insert
succeeds and the seat update fails. -/
theorem admit_shape_parent_seat_fails (faults : Faults) (db : DB) (req : RegRequest)
    (now : Int) (freshId : String) (event : Event)
    (hv : validateRegistration db req now = Except.ok event)
    (hc : req.childId = none) (hi : faults.insertFails = false)
    (hrole : req.parentRole ≠ "admin" ∧ req.parentRole ≠ "staff")
    (hs : faults.seatUpdateFails = true) :
    admitRegistration faults db req now freshId =
      { outcome := Outcome.storageFailed,
        db := createEventRegistration db (mkRegistration req event freshId) } := by
  unfold admitRegistration
  rw [hv, hi, hc, hs]
  simp [hrole.1, hrole.2]

/-- Shape of a fault-free accepted parent-self run by an ordinary role: row
inserted, then the seat count decremented by one. -/
theorem admit_shape_parent_ok (faults : Faults) (db : DB) (req : RegRequest)
    (now : Int) (freshId : String) (event : Event)
    (hv : validateRegistration db req now = Except.ok event)
    (hc : req.childId = none) (hi : faults.insertFails = false)
    (hrole : req.parentRole ≠ "admin" ∧ req.parentRole ≠ "staff")
    (hs : faults.seatUpdateFails = false) :
    admitRegistration faults db req now freshId =
      { outcome := Outcome.accepted,
        db := updateEventSeats
          (createEventRegistration db (mkRegistration req event freshId))
          req.eventId (-1) } := by
  unfold admitRegistration
  rw [hv, hi, hc, hs]
  simp [hrole.1, hrole.2]

/-- Shape of an accepted staff or admin parent-self run: row inserted, seat
count untouched (the second write is skipped, so its fault flag is moot). -/
theorem admit_shape_supervisor_ok (faults : Faults) (db : DB) (req : RegRequest)
    (now : Int) (freshId : String) (event : Event)
    (hv : validateRegistration db req now = Except.ok event)
    (hc : req.childId = none) (hi : faults.insertFails = false)
    (hrole : req.parentRole = "admin" ∨ req.parentRole = "staff") :
    admitRegistration faults db req now freshId =
      { outcome := Outcome.accepted,
        db := createEventRegistration db (mkRegistration req event freshId) } := by
  unfold admitRegistration
  rw [hv, hi, hc]
  have hcond : ¬(req.parentRole ≠ "admin" ∧ req.parentRole ≠ "staff") := by
    rcases hrole with h | h
    · exact fun hx => hx.1 h
    · exact fun hx => hx.2 h
  simp [hcond]
/-- C2 amended: every rejection leaves the database exactly as it was (all
checks precede both writes), and a seat change never happens without the
registration row (whenever the events table changed, the registrations
table is the old one with exactly this run's row appended); atomicity in
the other direction does not hold — see the counterexample, where the
seat-update write fails after the insert and the row is orphaned. -/
theorem rejection_leaves_state_and_decrement_implies_row (faults : Faults)
    (db : DB) (req : RegRequest) (now : Int) (freshId : String) :
    (∀ s msg, (admitRegistration faults db req now freshId).outcome = Outcome.rejected s msg →
      (admitRegistration faults db req now freshId).db = db) ∧
    ((admitRegistration faults db req now freshId).db.events ≠ db.events →
      ∃ event, (admitRegistration faults db req now freshId).db.registrations =
        db.registrations ++ [mkRegistration req event freshId]) := by
  cases hv : validateRegistration db req now with
  | error e =>
    obtain ⟨s, m⟩ := e
    rw [admit_shape_rejected faults db req now freshId s m hv]
    exact ⟨fun _ _ _ => rfl, fun h => absurd rfl h⟩
  | ok event =>
    cases hi : faults.insertFails with
    | true =>
      rw [admit_shape_insert_fails faults db req now freshId event hv hi]
      exact ⟨fun _ _ h => Outcome.noConfusion h, fun h => absurd rfl h⟩
    | false =>
      cases hc : req.childId with
      | some cid =>
        cases hs : faults.seatUpdateFails with
        | true =>
          rw [admit_shape_child_seat_fails faults db req now freshId event cid hv hc hi hs]
          exact ⟨fun _ _ h => Outcome.noConfusion h, fun _ => ⟨event, rfl⟩⟩
        | false =>
          rw [admit_shape_child_ok faults db req now freshId event cid hv hc hi hs]
          exact ⟨fun _ _ h => Outcome.noConfusion h, fun _ => ⟨event, rfl⟩⟩
      | none =>
        by_cases hrole : req.parentRole ≠ "admin" ∧ req.parentRole ≠ "staff"
        · cases hs : faults.seatUpdateFails with
          | true =>
            rw [admit_shape_parent_seat_fails faults db req now freshId event hv hc hi hrole hs]
            exact ⟨fun _ _ h => Outcome.noConfusion h, fun _ => ⟨event, rfl⟩⟩
          | false =>
            rw [admit_shape_parent_ok faults db req now freshId event hv hc hi hrole hs]
            exact ⟨fun _ _ h => Outcome.noConfusion h, fun _ => ⟨event, rfl⟩⟩
        · have hor : req.parentRole = "admin" ∨ req.parentRole = "staff" := by
            by_cases ha : req.parentRole = "admin"
            · exact Or.inl ha
            · by_cases hb : req.parentRole = "staff"
              · exact Or.inr hb
              · exact absurd ⟨ha, hb⟩ hrole
          rw [admit_shape_supervisor_ok faults db req now freshId event hv hc hi hor]
          exact ⟨fun _ _ h => Outcome.noConfusion h, fun h => absurd rfl h⟩

/-- Witness for the amended C2 theorem: a concrete rejected run (unknown
event id) leaves the database unchanged. -/
theorem rejection_leaves_state_witness :
    (admitRegistration noFaults emptyDB ghostReq 0 "r1").db = emptyDB :=
  (rejection_leaves_state_and_decrement_implies_row noFaults emptyDB ghostReq 0
    "r1").1 404 "Event not found" (by decide)

/-- Ordinary live event every admission check accepts. -/
def liveEvent : Event :=
  { id := "el", startTime := 1000000000, maxSeats := 5, remainingSeats := 5,
    creditsRequired := 1, cutoffHours := 0, extraServices := [],
    allowedRegistrants := "both", status := "open", deleted := false }

/-- Database with the live event and one child of parent p1. -/
def liveDB : DB :=
  { events := [liveEvent], children := [{ id := "c1", parentId := "p1" }],
    registrations := [] }

/-- Child registration request of parent p1 for the live event. -/
def childReq : RegRequest :=
  { eventId := "el", childId := some "c1", parentId := "p1", parentRole := "user",
    selectedServices := [] }

/-- Fault schedule in which the seat-update write throws. -/
def seatFault : Faults := { insertFails := false, seatUpdateFails := true }

/-- C2 counterexample: a run in which the insert succeeds and the seat
update then fails ends as a storage failure with the registration row
present and the seat count unchanged — a partial side effect, refuting the
claim that any failing run leaves both effects unapplied. -/
theorem registration_row_orphaned_when_seat_update_fails :
    (admitRegistration seatFault liveDB childReq 0 "r1").outcome = Outcome.storageFailed ∧
    (admitRegistration seatFault liveDB childReq 0 "r1").db.registrations ≠
      liveDB.registrations ∧
    (admitRegistration seatFault liveDB childReq 0 "r1").db.events = liveDB.events := by
  decide

/-- Remaining seats of the first events row with the given id, the value the
seat-mutation policy is stated about. -/
def remainingSeatsOf (db : DB) (eventId : String) : Option Int :=
  (getEvent db eventId).map Event.remainingSeats

/-- Applying a seat delta rewrites the found row pointwise: searching after
the conditional map is the conditional map of the search result. -/
theorem find?_map_seat_delta (l : List Event) (eid : String) (delta : Int) :
    (l.map (fun e => if e.id = eid then
        { e with remainingSeats := e.remainingSeats + delta } else e)).find?
      (fun e => e.id = eid) =
    (l.find? (fun e => e.id = eid)).map (fun e =>
      { e with remainingSeats := e.remainingSeats + delta }) := by
  induction l with
  | nil => rfl
  | cons a l ih =>
    by_cases h : a.id = eid
    · simp [List.find?_cons, h]
    · simp [List.find?_cons, h, ih]

/-- remainingSeatsOf after updateEventSeats is the old value shifted by the
delta (and stays absent when the event is absent). -/
theorem remainingSeatsOf_updateEventSeats (db : DB) (eid : String) (delta : Int) :
    remainingSeatsOf (updateEventSeats db eid delta) eid =
      (remainingSeatsOf db eid).map (fun s => s + delta) := by
  unfold remainingSeatsOf updateEventSeats getEvent
  simp only [find?_map_seat_delta]
  cases db.events.find? (fun e => e.id = eid) <;> rfl

/-- C6: in a fault-free accepted run, a child registration always lowers the
event's remaining seats by exactly one, whatever the caller's role; a
parent-self registration lowers it by exactly one when the caller's role is
neither admin nor staff, and leaves it unchanged when the role is admin or
staff. -/
theorem accepted_registration_seat_delta (db : DB) (req : RegRequest) (now : Int)
    (freshId : String)
    (hacc : (admitRegistration noFaults db req now freshId).outcome = Outcome.accepted) :
    (req.childId.isSome →
      remainingSeatsOf (admitRegistration noFaults db req now freshId).db req.eventId =
        (remainingSeatsOf db req.eventId).map (fun s => s - 1)) ∧
    (req.childId = none → req.parentRole ≠ "admin" → req.parentRole ≠ "staff" →
      remainingSeatsOf (admitRegistration noFaults db req now freshId).db req.eventId =
        (remainingSeatsOf db req.eventId).map (fun s => s - 1)) ∧
    (req.childId = none → (req.parentRole = "admin" ∨ req.parentRole = "staff") →
      remainingSeatsOf (admitRegistration noFaults db req now freshId).db req.eventId =
        remainingSeatsOf db req.eventId) := by
  have hshift : ∀ (d : DB) (eid : String),
      (remainingSeatsOf d eid).map (fun s => s + (-1)) =
        (remainingSeatsOf d eid).map (fun s => s - 1) := by
    intro d eid
    cases remainingSeatsOf d eid with
    | none => rfl
    | some s => simp [Int.sub_eq_add_neg]
  cases hv : validateRegistration db req now with
  | error e =>
    obtain ⟨s, m⟩ := e
    rw [admit_shape_rejected noFaults db req now freshId s m hv] at hacc
    exact Outcome.noConfusion hacc
  | ok event =>
    cases hc : req.childId with
    | some cid =>
      rw [admit_shape_child_ok noFaults db req now freshId event cid hv hc rfl rfl]
      refine ⟨fun _ => ?_, fun habs => ?_, fun habs => ?_⟩
      · have hbase : remainingSeatsOf
            (createEventRegistration db (mkRegistration req event freshId)) req.eventId =
            remainingSeatsOf db req.eventId := rfl
        calc remainingSeatsOf (updateEventSeats
              (createEventRegistration db (mkRegistration req event freshId))
              req.eventId (-1)) req.eventId
            = (remainingSeatsOf db req.eventId).map (fun s => s + (-1)) := by
              rw [remainingSeatsOf_updateEventSeats, hbase]
          _ = (remainingSeatsOf db req.eventId).map (fun s => s - 1) :=
              hshift db req.eventId
      · exact Option.noConfusion habs
      · exact Option.noConfusion habs
    | none =>
      by_cases hrole : req.parentRole ≠ "admin" ∧ req.parentRole ≠ "staff"
      · rw [admit_shape_parent_ok noFaults db req now freshId event hv hc rfl hrole rfl]
        refine ⟨fun hsome => ?_, fun _ _ _ => ?_, fun _ hor => ?_⟩
        · exact Bool.noConfusion hsome
        · have hbase : remainingSeatsOf
              (createEventRegistration db (mkRegistration req event freshId)) req.eventId =
              remainingSeatsOf db req.eventId := rfl
          calc remainingSeatsOf (updateEventSeats
                (createEventRegistration db (mkRegistration req event freshId))
                req.eventId (-1)) req.eventId
              = (remainingSeatsOf db req.eventId).map (fun s => s + (-1)) := by
                rw [remainingSeatsOf_updateEventSeats, hbase]
            _ = (remainingSeatsOf db req.eventId).map (fun s => s - 1) :=
                hshift db req.eventId
        · rcases hor with h | h
          · exact absurd h hrole.1
          · exact absurd h hrole.2
      · have hor : req.parentRole = "admin" ∨ req.parentRole = "staff" := by
          by_cases ha : req.parentRole = "admin"
          · exact Or.inl ha
          · by_cases hb : req.parentRole = "staff"
            · exact Or.inr hb
            · exact absurd ⟨ha, hb⟩ hrole
        rw [admit_shape_supervisor_ok noFaults db req now freshId event hv hc rfl hor]
        refine ⟨fun hsome => ?_, fun _ h1 h2 => ?_, fun _ _ => rfl⟩
        · exact Bool.noConfusion hsome
        · exact absurd ⟨h1, h2⟩ hrole

/-- Witness for the C6 theorem: the concrete child registration against the
live event with 5 remaining seats ends with 4. -/
theorem accepted_registration_seat_delta_witness :
    remainingSeatsOf (admitRegistration noFaults liveDB childReq 0 "r1").db "el" = some 4 := by
  have h := (accepted_registration_seat_delta liveDB childReq 0 "r1" (by decide)).1 (by decide)
  rw [show childReq.eventId = "el" from rfl] at h
  rw [h]
  decide

/-- Inversion of a successful validation: the returned event is exactly the
row getEvent fetched, and the seat guard held for it. -/
theorem validate_ok_inversion (db : DB) (req : RegRequest) (now : Int) (event : Event)
    (h : validateRegistration db req now = Except.ok event) :
    getEvent db req.eventId = some event ∧ 0 < event.remainingSeats := by
  unfold validateRegistration at h
  repeat'
    first
      | exact Except.noConfusion h
      | split at h
  all_goals
    injection h with h
    subst h
    exact ⟨by assumption, by omega⟩

/-- Contribution of one selected index: round(price * 100) when the index
names an existing extra service, 0 otherwise. -/
def serviceContribution (services : List ExtraService) (i : Int) : Int :=
  match lookupService services i with
  | some s => jsRound (s.price * 100)
  | none => 0

/-- Services cost as the specification words it: the sum, over the selected
service indices, of each present service's price in cents, with absent
indices contributing 0. -/
def specServicesCost (services : List ExtraService) (selected : List Int) : Int :=
  (selected.map (serviceContribution services)).sum

/-- The handler's reduce over the selected indices computes exactly the
specification's sum. -/
theorem computeServicesCost_eq_spec (event : Event) (selected : List Int) :
    computeServicesCost event selected =
      specServicesCost event.extraServices selected := by
  have hgen : ∀ (sel : List Int) (acc : Int),
      sel.foldl (fun total i => total + serviceContribution event.extraServices i) acc =
        acc + specServicesCost event.extraServices sel := by
    intro sel
    induction sel with
    | nil => intro acc; simp [specServicesCost]
    | cons a l ih =>
      intro acc
      rw [List.foldl_cons, ih]
      simp [specServicesCost, add_assoc]
  have hfold : computeServicesCost event selected =
      selected.foldl (fun total i => total + serviceContribution event.extraServices i) 0 := rfl
  rw [hfold, hgen]
  simp

/-- A run whose outcome is accepted passed the validation section. -/
theorem accepted_implies_validate_ok (faults : Faults) (db : DB) (req : RegRequest)
    (now : Int) (freshId : String)
    (hacc : (admitRegistration faults db req now freshId).outcome = Outcome.accepted) :
    ∃ event, validateRegistration db req now = Except.ok event := by
  cases hv : validateRegistration db req now with
  | error e =>
    obtain ⟨s, m⟩ := e
    rw [admit_shape_rejected faults db req now freshId s m hv] at hacc
    exact Outcome.noConfusion hacc
  | ok ev => exact ⟨ev, rfl⟩

/-- The run's outcome never depends on the selected service indices: they
enter only the cost fields of the inserted row, so no index, however
out of range, causes a rejection. -/
theorem outcome_ignores_selected_services (faults : Faults) (db : DB)
    (eid : String) (cid0 : Option String) (pid prole : String)
    (svc sel : List Int) (now : Int) (freshId : String) :
    (admitRegistration faults db ⟨eid, cid0, pid, prole, sel⟩ now freshId).outcome =
      (admitRegistration faults db ⟨eid, cid0, pid, prole, svc⟩ now freshId).outcome := by
  have hval : validateRegistration db ⟨eid, cid0, pid, prole, sel⟩ now =
      validateRegistration db ⟨eid, cid0, pid, prole, svc⟩ now := rfl
  cases hv : validateRegistration db ⟨eid, cid0, pid, prole, svc⟩ now with
  | error e =>
    obtain ⟨s, m⟩ := e
    rw [admit_shape_rejected faults db ⟨eid, cid0, pid, prole, sel⟩ now freshId s m
        (hval.trans hv),
      admit_shape_rejected faults db ⟨eid, cid0, pid, prole, svc⟩ now freshId s m hv]
  | ok ev =>
    cases hi : faults.insertFails with
    | true =>
      rw [admit_shape_insert_fails faults db ⟨eid, cid0, pid, prole, sel⟩ now freshId ev
          (hval.trans hv) hi,
        admit_shape_insert_fails faults db ⟨eid, cid0, pid, prole, svc⟩ now freshId ev hv hi]
    | false =>
      cases cid0 with
      | some cid =>
        cases hs : faults.seatUpdateFails with
        | true =>
          rw [admit_shape_child_seat_fails faults db ⟨eid, some cid, pid, prole, sel⟩ now
              freshId ev cid (hval.trans hv) rfl hi hs,
            admit_shape_child_seat_fails faults db ⟨eid, some cid, pid, prole, svc⟩ now
              freshId ev cid hv rfl hi hs]
        | false =>
          rw [admit_shape_child_ok faults db ⟨eid, some cid, pid, prole, sel⟩ now freshId ev
              cid (hval.trans hv) rfl hi hs,
            admit_shape_child_ok faults db ⟨eid, some cid, pid, prole, svc⟩ now freshId ev
              cid hv rfl hi hs]
      | none =>
        by_cases hrole : prole ≠ "admin" ∧ prole ≠ "staff"
        · cases hs : faults.seatUpdateFails with
          | true =>
            rw [admit_shape_parent_seat_fails faults db ⟨eid, none, pid, prole, sel⟩ now
                freshId ev (hval.trans hv) rfl hi hrole hs,
              admit_shape_parent_seat_fails faults db ⟨eid, none, pid, prole, svc⟩ now
                freshId ev hv rfl hi hrole hs]
          | false =>
            rw [admit_shape_parent_ok faults db ⟨eid, none, pid, prole, sel⟩ now freshId ev
                (hval.trans hv) rfl hi hrole hs,
              admit_shape_parent_ok faults db ⟨eid, none, pid, prole, svc⟩ now freshId ev
                hv rfl hi hrole hs]
        · have hor : prole = "admin" ∨ prole = "staff" := by
            by_cases ha : prole = "admin"
            · exact Or.inl ha
            · by_cases hb : prole = "staff"
              · exact Or.inr hb
              · exact absurd ⟨ha, hb⟩ hrole
          rw [admit_shape_supervisor_ok faults db ⟨eid, none, pid, prole, sel⟩ now freshId ev
              (hval.trans hv) rfl hi hor,
            admit_shape_supervisor_ok faults db ⟨eid, none, pid, prole, svc⟩ now freshId ev
              hv rfl hi hor]

/-- C7: every fault-free accepted run appends exactly one registration row
whose creditsCost is the event's flat creditsRequired (child or not) and
whose servicesCost is the specification's sum over the selected indices
that fall within extraServices, with out-of-range or unknown indices
contributing 0; moreover the selected indices never change the outcome, so
a bad index cannot cause a rejection. -/
theorem accepted_registration_costs (db : DB) (req : RegRequest) (now : Int)
    (freshId : String) (event : Event)
    (hev : getEvent db req.eventId = some event)
    (hacc : (admitRegistration noFaults db req now freshId).outcome = Outcome.accepted) :
    (∃ r, (admitRegistration noFaults db req now freshId).db.registrations =
        db.registrations ++ [r] ∧
      r.creditsCost = event.creditsRequired ∧
      r.servicesCost = specServicesCost event.extraServices req.selectedServices) ∧
    (∀ sel : List Int,
      (admitRegistration noFaults db { req with selectedServices := sel } now freshId).outcome =
        Outcome.accepted) := by
  obtain ⟨ev, hv⟩ := accepted_implies_validate_ok noFaults db req now freshId hacc
  have hev2 := (validate_ok_inversion db req now ev hv).1
  rw [hev] at hev2
  injection hev2 with hevEq
  rw [← hevEq] at hv
  constructor
  · refine ⟨mkRegistration req event freshId, ?_, rfl,
      computeServicesCost_eq_spec event req.selectedServices⟩
    cases hc : req.childId with
    | some cid =>
      rw [admit_shape_child_ok noFaults db req now freshId event cid hv hc rfl rfl]
      rfl
    | none =>
      by_cases hrole : req.parentRole ≠ "admin" ∧ req.parentRole ≠ "staff"
      · rw [admit_shape_parent_ok noFaults db req now freshId event hv hc rfl hrole rfl]
        rfl
      · have hor : req.parentRole = "admin" ∨ req.parentRole = "staff" := by
          by_cases ha : req.parentRole = "admin"
          · exact Or.inl ha
          · by_cases hb : req.parentRole = "staff"
            · exact Or.inr hb
            · exact absurd ⟨ha, hb⟩ hrole
        rw [admit_shape_supervisor_ok noFaults db req now freshId event hv hc rfl hor]
        rfl
  · intro sel
    rw [outcome_ignores_selected_services noFaults db req.eventId req.childId req.parentId
      req.parentRole req.selectedServices sel now freshId]
    exact hacc

/-- Event with two priced extra services, used to exercise the cost path. -/
def svcEvent : Event :=
  { id := "es", startTime := 1000000000, maxSeats := 5, remainingSeats := 5,
    creditsRequired := 2, cutoffHours := 0,
    extraServices := [{ description := "Food", price := 10 },
      { description := "Snacks", price := 11 / 2 }],
    allowedRegistrants := "both", status := "open", deleted := false }

/-- Database holding only the two-service event. -/
def svcDB : DB := { events := [svcEvent], children := [], registrations := [] }

/-- Parent-self request selecting both services plus one out-of-range and
one negative index. -/
def svcReq : RegRequest :=
  { eventId := "es", childId := none, parentId := "p1", parentRole := "user",
    selectedServices := [0, 1, 5, -1] }

/-- Witness for the C7 theorem: the concrete run is accepted, its row costs
2 credits flat, and its services cost is 1000 + 550 cents with the indices
5 and -1 contributing nothing. -/
theorem accepted_registration_costs_witness :
    ∃ r, (admitRegistration noFaults svcDB svcReq 0 "r1").db.registrations =
        svcDB.registrations ++ [r] ∧
      r.creditsCost = 2 ∧ r.servicesCost = 1550 := by
  obtain ⟨⟨r, hreg, hcred, hsvc⟩, _⟩ :=
    accepted_registration_costs svcDB svcReq 0 "r1" svcEvent (by rfl) (by rfl)
  refine ⟨r, hreg, ?_, ?_⟩
  · rw [hcred]
    rfl
  · rw [hsvc]
    simp only [specServicesCost, svcEvent, svcReq, List.map_cons, List.map_nil,
      List.sum_cons, List.sum_nil]
    norm_num [serviceContribution, lookupService, jsRound]
    simp

/-- The specification's rejection taxonomy for the admission sequence. -/
inductive RejectReason where
  | notFound
  | eventFull
  | registrationClosed
  | registrantTypeNotAllowed
  | alreadyRegistered
  deriving Repr, DecidableEq

/-- Map each handler rejection message onto the specification's reason. -/
def reasonOfMessage (m : String) : RejectReason :=
  if m = "Event not found" ∨ m = "Child not found" then .notFound
  else if m = "No seats available for this event" then .eventFull
  else if m = "Registration deadline has passed" then .registrationClosed
  else if m = "This event is only open to children (attendees)" ∨
      m = "This event is only open to parents (users)" then .registrantTypeNotAllowed
  else .alreadyRegistered

/-- Rejection reason of a run, none when the run was not rejected. -/
def runRejection (r : RunResult) : Option RejectReason :=
  match r.outcome with
  | .rejected _ m => some (reasonOfMessage m)
  | _ => none

/-- Modelled from the spec: rule 4 of section 4.2 — a child registration
needs mode attendee or both, a parent-self registration mode user or both. -/
def registrantTypeAllowed (event : Event) (childId : Option String) : Bool :=
  match childId with
  | some _ => event.allowedRegistrants = "attendee" ∨ event.allowedRegistrants = "both"
  | none => event.allowedRegistrants = "user" ∨ event.allowedRegistrants = "both"

/-- Modelled from the spec: rule 5 of section 4.2 — an existing registration
binding the exact (event, child) pair, or the exact (event, parent,
null-child) triple. -/
def alreadyRegisteredCheck (db : DB) (req : RegRequest) : Bool :=
  match req.childId with
  | some cid => isChildRegisteredForEvent db cid req.eventId
  | none => (getEventRegistrationsByParent db req.parentId).any
      (fun r => r.eventId = req.eventId ∧ r.childId = none)

/-- Modelled from the spec: rule 6 of section 4.2 — a supplied child must
exist and belong to the requesting parent. -/
def childOwnershipOk (db : DB) (req : RegRequest) : Bool :=
  match req.childId with
  | some cid =>
    match getChild db cid with
    | some child => child.parentId = req.parentId
    | none => false
  | none => true

/-- Modelled from the spec: the six admission rules of section 4.2 in their
stated order, failing fast with the first violated rule's reason. -/
def specAdmitOrder (db : DB) (req : RegRequest) (now : Int) : Option RejectReason :=
  match getEvent db req.eventId with
  | none => some .notFound
  | some event =>
    if ¬(event.remainingSeats > 0) then some .eventFull
    else if ¬(now ≤ event.startTime - event.cutoffHours * msPerHour) then
      some .registrationClosed
    else if ¬(registrantTypeAllowed event req.childId = true) then
      some .registrantTypeNotAllowed
    else if alreadyRegisteredCheck db req = true then some .alreadyRegistered
    else if ¬(childOwnershipOk db req = true) then some .notFound
    else none

/-- A run rejects exactly when its validation section errs, with the
message's reason; fault flags never turn a non-rejection into one. -/
theorem runRejection_eq_validate (faults : Faults) (db : DB) (req : RegRequest)
    (now : Int) (freshId : String) :
    runRejection (admitRegistration faults db req now freshId) =
      (match validateRegistration db req now with
        | .error (_, m) => some (reasonOfMessage m)
        | .ok _ => none) := by
  cases hv : validateRegistration db req now with
  | error e =>
    obtain ⟨s, m⟩ := e
    rw [admit_shape_rejected faults db req now freshId s m hv]
    rfl
  | ok ev =>
    cases hi : faults.insertFails with
    | true =>
      rw [admit_shape_insert_fails faults db req now freshId ev hv hi]
      rfl
    | false =>
      cases hc : req.childId with
      | some cid =>
        cases hs : faults.seatUpdateFails with
        | true =>
          rw [admit_shape_child_seat_fails faults db req now freshId ev cid hv hc hi hs]
          rfl
        | false =>
          rw [admit_shape_child_ok faults db req now freshId ev cid hv hc hi hs]
          rfl
      | none =>
        by_cases hrole : req.parentRole ≠ "admin" ∧ req.parentRole ≠ "staff"
        · cases hs : faults.seatUpdateFails with
          | true =>
            rw [admit_shape_parent_seat_fails faults db req now freshId ev hv hc hi hrole hs]
            rfl
          | false =>
            rw [admit_shape_parent_ok faults db req now freshId ev hv hc hi hrole hs]
            rfl
        · have hor : req.parentRole = "admin" ∨ req.parentRole = "staff" := by
            by_cases ha : req.parentRole = "admin"
            · exact Or.inl ha
            · by_cases hb : req.parentRole = "staff"
              · exact Or.inr hb
              · exact absurd ⟨ha, hb⟩ hrole
          rw [admit_shape_supervisor_ok faults db req now freshId ev hv hc hi hor]
          rfl

/-- The validation section, mapped to the taxonomy, follows exactly the
specification's six-rule order (for the three documented registrant
modes). -/
theorem validate_matches_spec_order (db : DB) (req : RegRequest) (now : Int)
    (hmode : ∀ event, getEvent db req.eventId = some event →
      event.allowedRegistrants = "attendee" ∨ event.allowedRegistrants = "user" ∨
        event.allowedRegistrants = "both") :
    (match validateRegistration db req now with
      | .error (_, m) => some (reasonOfMessage m)
      | .ok _ => none) = specAdmitOrder db req now := by
  unfold validateRegistration specAdmitOrder
  cases hge : getEvent db req.eventId with
  | none => rfl
  | some event =>
    simp only []
    have hmode3 := hmode event hge
    by_cases h1 : event.remainingSeats ≤ 0
    · rw [if_pos h1, if_pos (show ¬(event.remainingSeats > 0) by omega)]
      rfl
    · rw [if_neg h1, if_neg (show ¬¬(event.remainingSeats > 0) by omega)]
      by_cases h2 : now > event.startTime - event.cutoffHours * msPerHour
      · rw [if_pos h2,
          if_pos (show ¬(now ≤ event.startTime - event.cutoffHours * msPerHour) by omega)]
        rfl
      · rw [if_neg h2,
          if_neg (show ¬¬(now ≤ event.startTime - event.cutoffHours * msPerHour) by omega)]
        cases hc : req.childId with
        | none =>
          simp only [registrantTypeAllowed, alreadyRegisteredCheck, childOwnershipOk, hc]
          by_cases h3 : event.allowedRegistrants = "attendee"
          · have hcond : ¬(decide (event.allowedRegistrants = "user" ∨
                event.allowedRegistrants = "both") = true) := by
              simp [h3]
            rw [if_pos h3, if_pos hcond]
            rfl
          · have hmode2 : event.allowedRegistrants = "user" ∨
                event.allowedRegistrants = "both" := by
              rcases hmode3 with h | h | h
              · exact absurd h h3
              · exact Or.inl h
              · exact Or.inr h
            have hcond : ¬¬(decide (event.allowedRegistrants = "user" ∨
                event.allowedRegistrants = "both") = true) := by
              simp [hmode2]
            rw [if_neg h3, if_neg hcond]
            cases hany : (getEventRegistrationsByParent db req.parentId).any
                (fun r => r.eventId = req.eventId ∧ r.childId = none) with
            | true =>
              rw [if_pos rfl, if_pos rfl]
              rfl
            | false => simp [reasonOfMessage]
        | some cid =>
          simp only [registrantTypeAllowed, alreadyRegisteredCheck, childOwnershipOk, hc]
          by_cases h3 : event.allowedRegistrants = "user"
          · have hcond : ¬(decide (event.allowedRegistrants = "attendee" ∨
                event.allowedRegistrants = "both") = true) := by
              simp [h3]
            rw [if_pos h3, if_pos hcond]
            rfl
          · have hmode2 : event.allowedRegistrants = "attendee" ∨
                event.allowedRegistrants = "both" := by
              rcases hmode3 with h | h | h
              · exact Or.inl h
              · exact absurd h h3
              · exact Or.inr h
            have hcond : ¬¬(decide (event.allowedRegistrants = "attendee" ∨
                event.allowedRegistrants = "both") = true) := by
              simp [hmode2]
            rw [if_neg h3, if_neg hcond]
            cases hreg : isChildRegisteredForEvent db cid req.eventId with
            | true =>
              rw [if_pos rfl, if_pos rfl]
              rfl
            | false =>
              simp only [Bool.false_eq_true, if_false]
              cases hgc : getChild db cid with
              | none => simp [reasonOfMessage]
              | some child =>
                simp only []
                by_cases hown : child.parentId ≠ req.parentId
                · have hcond : ¬(decide (child.parentId = req.parentId) = true) := by
                    simp [hown]
                  rw [if_pos hown, if_pos hcond]
                  rfl
                · have hpeq : child.parentId = req.parentId := not_not.mp hown
                  rw [if_neg hown,
                    if_neg (show ¬¬(decide (child.parentId = req.parentId) = true) by
                      simp [hpeq])]

/-- C5: for every database whose events use the documented registrant modes,
the handler's rejection behaviour coincides with the specification's
six-rule sequence evaluated in its stated order — existence, seats, cutoff,
registrant-type permission, uniqueness, child ownership — failing fast with
the first violated rule's reason; in particular an existing event with no
seats left always rejects as EventFull, even when the cutoff has also
passed (the witness exercises exactly that input). -/
theorem admission_checks_follow_spec_order (db : DB) (req : RegRequest) (now : Int)
    (freshId : String)
    (hmode : ∀ event, getEvent db req.eventId = some event →
      event.allowedRegistrants = "attendee" ∨ event.allowedRegistrants = "user" ∨
        event.allowedRegistrants = "both") :
    runRejection (admitRegistration noFaults db req now freshId) =
      specAdmitOrder db req now :=
  (runRejection_eq_validate noFaults db req now freshId).trans
    (validate_matches_spec_order db req now hmode)

/-- Full event whose registration cutoff has also already passed. -/
def fullEvent : Event :=
  { id := "ef", startTime := 1000, maxSeats := 3, remainingSeats := 0,
    creditsRequired := 0, cutoffHours := 12, extraServices := [],
    allowedRegistrants := "both", status := "open", deleted := false }

/-- Database holding only the full event. -/
def fullDB : DB := { events := [fullEvent], children := [], registrations := [] }

/-- Parent-self request against the full event. -/
def fullReq : RegRequest :=
  { eventId := "ef", childId := none, parentId := "p1", parentRole := "user",
    selectedServices := [] }

/-- Witness for the C5 theorem: at a concrete event with zero remaining
seats and an expired cutoff, the run rejects as EventFull — the seats rule
wins over the cutoff rule, as the order demands. -/
theorem admission_checks_follow_spec_order_witness :
    runRejection (admitRegistration noFaults fullDB fullReq 5000 "r1") =
      specAdmitOrder fullDB fullReq 5000 ∧
    specAdmitOrder fullDB fullReq 5000 = some RejectReason.eventFull :=
  ⟨admission_checks_follow_spec_order fullDB fullReq 5000 "r1" (fun e he => by
      have hgot : getEvent fullDB fullReq.eventId = some fullEvent := by decide
      rw [hgot] at he
      injection he with h
      rw [← h]
      right
      right
      rfl),
    by decide⟩

/-- The event invariant of the specification: remaining seats lie between 0
and the maximum, for every events row. -/
def seatInvariant (db : DB) : Prop :=
  ∀ e ∈ db.events, 0 ≤ e.remainingSeats ∧ e.remainingSeats ≤ e.maxSeats

instance (db : DB) : Decidable (seatInvariant db) :=
  inferInstanceAs (Decidable (∀ e ∈ db.events,
    0 ≤ e.remainingSeats ∧ e.remainingSeats ≤ e.maxSeats))

/-- Fields the admin edit route PUT /api/admin/events/:id always writes
(src/server/routes.ts lines 292-324): each is coerced with Number/new Date
and passed to storage.updateEvent with no range validation whatsoever. -/
structure EventUpdate where
  startTime : Int
  maxSeats : Int
  remainingSeats : Int
  creditsRequired : Int
  cutoffHours : Int
  extraServices : List ExtraService
  deriving Repr, DecidableEq

/-- Column assignment performed by DatabaseStorage.updateEvent for the
modelled columns. -/
def applyEventUpdate (e : Event) (u : EventUpdate) : Event :=
  { e with
    startTime := u.startTime
    maxSeats := u.maxSeats
    remainingSeats := u.remainingSeats
    creditsRequired := u.creditsRequired
    cutoffHours := u.cutoffHours
    extraServices := u.extraServices }

/-- DatabaseStorage.updateEvent (src/server/storage.ts lines 277-289) as
invoked by the admin edit route: set the processed columns on every events
row with the given id. -/
def updateEvent (db : DB) (id : String) (u : EventUpdate) : DB :=
  { db with events := db.events.map (fun e =>
      if e.id = id then applyEventUpdate e u else e) }

/-- Event satisfying the invariant before the admin edit. -/
def boundedEvent : Event :=
  { id := "eb", startTime := 1000000000, maxSeats := 3, remainingSeats := 3,
    creditsRequired := 0, cutoffHours := 0, extraServices := [],
    allowedRegistrants := "both", status := "open", deleted := false }

/-- Database holding only the bounded event. -/
def boundedDB : DB := { events := [boundedEvent], children := [], registrations := [] }

/-- Admin edit writing a negative remainingSeats, as the route happily
forwards. -/
def negativeSeatsUpdate : EventUpdate :=
  { startTime := 1000000000, maxSeats := 3, remainingSeats := -5,
    creditsRequired := 0, cutoffHours := 0, extraServices := [] }

/-- C1 counterexample: the admin edit route validates nothing, so a single
updateEvent call drives remainingSeats to -5, breaking the claimed
invariant 0 ≤ remainingSeats ≤ maxSeats that every exposed operation was
said to preserve. -/
theorem admin_edit_breaks_seat_invariant :
    seatInvariant boundedDB ∧
    ¬ seatInvariant (updateEvent boundedDB "eb" negativeSeatsUpdate) ∧
    (updateEvent boundedDB "eb" negativeSeatsUpdate).events.map
      Event.remainingSeats = [-5] := by
  decide

/-- Event ids are untouched by every registration run. -/
theorem map_id_updateSeats (l : List Event) (eid : String) (delta : Int) :
    (l.map (fun e => if e.id = eid then
      { e with remainingSeats := e.remainingSeats + delta } else e)).map Event.id =
      l.map Event.id := by
  induction l with
  | nil => rfl
  | cons a l ih =>
    by_cases h : a.id = eid
    · simp [h, ih]
    · simp [h, ih]

/-- The registration handler never adds, removes or renames an events row. -/
theorem admit_preserves_eventIds (faults : Faults) (db : DB) (req : RegRequest)
    (now : Int) (freshId : String) :
    (admitRegistration faults db req now freshId).db.events.map Event.id =
      db.events.map Event.id := by
  cases hv : validateRegistration db req now with
  | error e =>
    obtain ⟨s, m⟩ := e
    rw [admit_shape_rejected faults db req now freshId s m hv]
  | ok ev =>
    cases hi : faults.insertFails with
    | true => rw [admit_shape_insert_fails faults db req now freshId ev hv hi]
    | false =>
      cases hc : req.childId with
      | some cid =>
        cases hs : faults.seatUpdateFails with
        | true =>
          rw [admit_shape_child_seat_fails faults db req now freshId ev cid hv hc hi hs]
          rfl
        | false =>
          rw [admit_shape_child_ok faults db req now freshId ev cid hv hc hi hs]
          exact map_id_updateSeats db.events req.eventId (-1)
      | none =>
        by_cases hrole : req.parentRole ≠ "admin" ∧ req.parentRole ≠ "staff"
        · cases hs : faults.seatUpdateFails with
          | true =>
            rw [admit_shape_parent_seat_fails faults db req now freshId ev hv hc hi hrole hs]
            rfl
          | false =>
            rw [admit_shape_parent_ok faults db req now freshId ev hv hc hi hrole hs]
            exact map_id_updateSeats db.events req.eventId (-1)
        · have hor : req.parentRole = "admin" ∨ req.parentRole = "staff" := by
            by_cases ha : req.parentRole = "admin"
            · exact Or.inl ha
            · by_cases hb : req.parentRole = "staff"
              · exact Or.inr hb
              · exact absurd ⟨ha, hb⟩ hrole
          rw [admit_shape_supervisor_ok faults db req now freshId ev hv hc hi hor]
          rfl

/-- Decrementing a present event whose seats are still positive keeps every
row inside the invariant, as long as event ids are unique (the guard was
checked against the row the decrement hits). -/
theorem updateEventSeats_dec_invariant (db : DB) (eid : String) (event : Event)
    (hnodup : (db.events.map Event.id).Nodup) (hinv : seatInvariant db)
    (hfind : getEvent db eid = some event) (hpos : 0 < event.remainingSeats) :
    seatInvariant (updateEventSeats db eid (-1)) := by
  have hmem : event ∈ db.events := List.mem_of_find?_eq_some hfind
  have hid : event.id = eid := by
    have hp := List.find?_some hfind
    simpa using hp
  intro e' he'
  rw [show (updateEventSeats db eid (-1)).events = db.events.map (fun e =>
      if e.id = eid then { e with remainingSeats := e.remainingSeats + (-1) } else e)
    from rfl] at he'
  rw [List.mem_map] at he'
  obtain ⟨e, he, heq⟩ := he'
  by_cases h : e.id = eid
  · have hee : e = event :=
      List.inj_on_of_nodup_map hnodup he hmem (by rw [h, hid])
    subst hee
    rw [← heq]
    simp only [if_pos h]
    have hb := hinv e he
    constructor
    · omega
    · omega
  · rw [← heq]
    simp only [if_neg h]
    exact hinv e he

/-- One registration run preserves the seat invariant: the only seat write
is a decrement guarded by the remainingSeats > 0 check of the validation
section. -/
theorem admit_preserves_seatInvariant (faults : Faults) (db : DB) (req : RegRequest)
    (now : Int) (freshId : String)
    (hnodup : (db.events.map Event.id).Nodup) (hinv : seatInvariant db) :
    seatInvariant (admitRegistration faults db req now freshId).db := by
  cases hv : validateRegistration db req now with
  | error e =>
    obtain ⟨s, m⟩ := e
    rw [admit_shape_rejected faults db req now freshId s m hv]
    exact hinv
  | ok ev =>
    obtain ⟨hfind, hpos⟩ := validate_ok_inversion db req now ev hv
    cases hi : faults.insertFails with
    | true =>
      rw [admit_shape_insert_fails faults db req now freshId ev hv hi]
      exact hinv
    | false =>
      cases hc : req.childId with
      | some cid =>
        cases hs : faults.seatUpdateFails with
        | true =>
          rw [admit_shape_child_seat_fails faults db req now freshId ev cid hv hc hi hs]
          exact hinv
        | false =>
          rw [admit_shape_child_ok faults db req now freshId ev cid hv hc hi hs]
          exact updateEventSeats_dec_invariant
            (createEventRegistration db (mkRegistration req ev freshId)) req.eventId ev
            hnodup hinv hfind hpos
      | none =>
        by_cases hrole : req.parentRole ≠ "admin" ∧ req.parentRole ≠ "staff"
        · cases hs : faults.seatUpdateFails with
          | true =>
            rw [admit_shape_parent_seat_fails faults db req now freshId ev hv hc hi hrole hs]
            exact hinv
          | false =>
            rw [admit_shape_parent_ok faults db req now freshId ev hv hc hi hrole hs]
            exact updateEventSeats_dec_invariant
              (createEventRegistration db (mkRegistration req ev freshId)) req.eventId ev
              hnodup hinv hfind hpos
        · have hor : req.parentRole = "admin" ∨ req.parentRole = "staff" := by
            by_cases ha : req.parentRole = "admin"
            · exact Or.inl ha
            · by_cases hb : req.parentRole = "staff"
              · exact Or.inr hb
              · exact absurd ⟨ha, hb⟩ hrole
          rw [admit_shape_supervisor_ok faults db req now freshId ev hv hc hi hor]
          exact hinv

/-- A whole workload of registration runs, each with its own fault
schedule, request, clock value and generated row id, folded over the
database state. -/
def runRegistrationSequence (db : DB)
    (steps : List (Faults × RegRequest × Int × String)) : DB :=
  steps.foldl (fun d step =>
    (admitRegistration step.1 d step.2.1 step.2.2.1 step.2.2.2).db) db

/-- C1 amended: every sequence of registration runs preserves the event
invariant 0 ≤ remainingSeats ≤ maxSeats (given unique event ids), because
the only seat write of the handler is a decrement guarded by the seats > 0
check; the claim fails for admin edits — updateEvent writes remainingSeats
with no bounds validation at all, see the counterexample — so the invariant
is not preserved by every exposed operation. -/
theorem registration_sequence_preserves_seat_invariant (db : DB)
    (steps : List (Faults × RegRequest × Int × String))
    (hnodup : (db.events.map Event.id).Nodup) (hinv : seatInvariant db) :
    seatInvariant (runRegistrationSequence db steps) := by
  induction steps generalizing db with
  | nil => exact hinv
  | cons s rest ih =>
    have hstep : runRegistrationSequence db (s :: rest) =
        runRegistrationSequence (admitRegistration s.1 db s.2.1 s.2.2.1 s.2.2.2).db rest :=
      rfl
    rw [hstep]
    apply ih
    · rw [admit_preserves_eventIds]
      exact hnodup
    · exact admit_preserves_seatInvariant s.1 db s.2.1 s.2.2.1 s.2.2.2 hnodup hinv

/-- Witness for the amended C1 theorem: a concrete two-run workload against
the live event keeps the invariant. -/
theorem registration_sequence_preserves_seat_invariant_witness :
    seatInvariant (runRegistrationSequence liveDB
      [(noFaults, childReq, 0, "r1"), (seatFault, childReq, 0, "r2")]) :=
  registration_sequence_preserves_seat_invariant liveDB
    [(noFaults, childReq, 0, "r1"), (seatFault, childReq, 0, "r2")]
    (by decide) (by decide)

/-- The closed set of event statuses (EventStatus in src/shared/schema.ts). -/
def validStatuses : List String :=
  ["open", "registration_closed", "full", "past", "editing"]

/-- Result of the administrative status-update route. -/
inductive StatusUpdateResult where
  | notFound
  | ok (e : Event)
  deriving Repr, DecidableEq

/-- Rows after DatabaseStorage.updateEventStatus's update statement: the
status column is set on every row with the given id. -/
def setStatusRows (l : List Event) (id : String) (status : String) : List Event :=
  l.map (fun e => if e.id = id then { e with status := status } else e)

/-- DatabaseStorage.updateEventStatus (src/server/storage.ts lines 291-301):
update with returning — the new database state paired with the first
updated row, none when no row matched. -/
def updateEventStatus (db : DB) (id : String) (status : String) : DB × Option Event :=
  ({ db with events := setStatusRows db.events id status },
    (setStatusRows db.events id status).find? (fun e => e.id = id))

/-- PUT /api/admin/events/:id/status (src/server/routes.ts lines 242-257):
req.body.status is destructured and handed to storage unchecked — there is
no membership test against any closed set — and a missing row becomes a 404
NotFound. -/
def updateEventStatusRoute (db : DB) (eventId : String) (status : String) :
    DB × StatusUpdateResult :=
  match updateEventStatus db eventId status with
  | (db1, none) => (db1, .notFound)
  | (db1, some e) => (db1, .ok e)

/-- C8 counterexample: the route accepts the status string bogus — far
outside the closed set — and stores it, answering ok instead of rejecting
at the boundary. -/
theorem status_route_accepts_arbitrary_string :
    ("bogus" ∈ validStatuses → False) ∧
    (updateEventStatusRoute boundedDB "eb" "bogus").2 =
      StatusUpdateResult.ok { boundedEvent with status := "bogus" } ∧
    (updateEventStatusRoute boundedDB "eb" "bogus").1.events.map Event.status =
      ["bogus"] := by
  decide

/-- Searching after the status rewrite is the rewrite of the search. -/
theorem find?_setStatusRows (l : List Event) (eid : String) (s : String) :
    (setStatusRows l eid s).find? (fun e => e.id = eid) =
      (l.find? (fun e => e.id = eid)).map (fun e => { e with status := s }) := by
  unfold setStatusRows
  induction l with
  | nil => rfl
  | cons a l ih =>
    by_cases h : a.id = eid
    · simp [List.find?_cons, h]
    · simp [List.find?_cons, h, ih]

/-- A status rewrite that matches no row leaves the rows unchanged. -/
theorem setStatusRows_of_absent (l : List Event) (eid : String) (s : String)
    (h : l.find? (fun e => e.id = eid) = none) : setStatusRows l eid s = l := by
  unfold setStatusRows
  have hall := List.find?_eq_none.mp h
  calc l.map (fun e => if e.id = eid then { e with status := s } else e)
      = l.map id := by
        apply List.map_congr_left
        intro a ha
        have : ¬(a.id = eid) := by simpa using hall a ha
        simp [this]
    _ = l := List.map_id l

/-- C8 amended: updating the status of a nonexistent event id returns
NotFound and changes nothing; but no status-string validation happens at
the boundary — for an existing event, any string whatsoever is stored on
the row and answered with ok. -/
theorem status_update_not_found_and_unvalidated (db : DB) (id : String) (s : String) :
    (getEvent db id = none →
      updateEventStatusRoute db id s = (db, StatusUpdateResult.notFound)) ∧
    (∀ e, getEvent db id = some e →
      updateEventStatusRoute db id s =
        ({ db with events := setStatusRows db.events id s },
          StatusUpdateResult.ok { e with status := s })) := by
  constructor
  · intro h
    have hnone : db.events.find? (fun e => e.id = id) = none := h
    unfold updateEventStatusRoute updateEventStatus
    rw [find?_setStatusRows, hnone, setStatusRows_of_absent db.events id s hnone]
    rfl
  · intro e he
    have hsome : db.events.find? (fun x => x.id = id) = some e := he
    unfold updateEventStatusRoute updateEventStatus
    rw [find?_setStatusRows, hsome]
    rfl

/-- Witness for the amended C8 theorem: the ok half at the concrete bounded
event with the string bogus, and the NotFound half at an absent id. -/
theorem status_update_not_found_and_unvalidated_witness :
    updateEventStatusRoute boundedDB "eb" "bogus" =
      ({ boundedDB with events := setStatusRows boundedDB.events "eb" "bogus" },
        StatusUpdateResult.ok { boundedEvent with status := "bogus" }) ∧
    updateEventStatusRoute boundedDB "missing" "open" =
      (boundedDB, StatusUpdateResult.notFound) :=
  ⟨(status_update_not_found_and_unvalidated boundedDB "eb" "bogus").2 boundedEvent
      (by decide),
    (status_update_not_found_and_unvalidated boundedDB "missing" "open").1 (by decide)⟩

/-- DatabaseStorage.getEventRegistrationsWithDetailsForParent
(src/server/storage.ts lines 404-437): the parent's registrations inner
joined with events on eventId and with attendee on childId — a NULL childId
never satisfies the join condition, so such rows are dropped. Modelled as
the surviving registration rows (the select's projection keeps the modelled
columns; the orderBy does not affect membership). -/
def getEventRegistrationsWithDetailsForParent (db : DB) (parentId : String) :
    List Registration :=
  (db.registrations.filter (fun r => r.parentId = parentId)).filter (fun r =>
    (db.events.any (fun e => e.id = r.eventId)) &&
    (match r.childId with
      | some cid => db.children.any (fun c => c.id = cid)
      | none => false))

/-- C10: the detailed my-events listing contains only registrations with a
non-null child reference; every parent-self registration of the parent —
staff or not — is in the plain listing but silently absent from the
detailed one. -/
theorem details_listing_omits_parent_self_registrations (db : DB) (pid : String) :
    (∀ r ∈ getEventRegistrationsWithDetailsForParent db pid, r.childId ≠ none) ∧
    (∀ r ∈ db.registrations, r.parentId = pid → r.childId = none →
      r ∈ getEventRegistrationsByParent db pid ∧
        r ∉ getEventRegistrationsWithDetailsForParent db pid) := by
  constructor
  · intro r hr
    unfold getEventRegistrationsWithDetailsForParent at hr
    have hpred := (List.mem_filter.mp hr).2
    rw [Bool.and_eq_true] at hpred
    cases hc : r.childId with
    | none =>
      rw [hc] at hpred
      exact absurd hpred.2 (by simp)
    | some cid =>
      intro hx
      exact Option.noConfusion hx
  · intro r hr hp hc
    constructor
    · unfold getEventRegistrationsByParent
      exact List.mem_filter.mpr ⟨hr, by simp [hp]⟩
    · intro habs
      unfold getEventRegistrationsWithDetailsForParent at habs
      have hpred := (List.mem_filter.mp habs).2
      rw [Bool.and_eq_true, hc] at hpred
      exact absurd hpred.2 (by simp)

/-- Parent-self registration row of parent p1 for the live event. -/
def parentSelfReg : Registration :=
  { id := "rP", eventId := "el", childId := none, parentId := "p1",
    selectedServices := [], creditsCost := 0, servicesCost := 0 }

/-- Child registration row of parent p1 for the live event. -/
def childRegRow : Registration :=
  { id := "rC", eventId := "el", childId := some "c1", parentId := "p1",
    selectedServices := [], creditsCost := 0, servicesCost := 0 }

/-- Database with one parent-self and one child registration of p1. -/
def detailsDB : DB :=
  { events := [liveEvent], children := [{ id := "c1", parentId := "p1" }],
    registrations := [parentSelfReg, childRegRow] }

/-- Witness for the C10 theorem: the concrete parent-self row is returned
by the plain listing and absent from the detailed one. -/
theorem details_listing_omits_parent_self_registrations_witness :
    parentSelfReg ∈ getEventRegistrationsByParent detailsDB "p1" ∧
    parentSelfReg ∉ getEventRegistrationsWithDetailsForParent detailsDB "p1" :=
  (details_listing_omits_parent_self_registrations detailsDB "p1").2 parentSelfReg
    (by decide) (by decide) (by decide)

end KidEvent
